import Mathlib

/-!
Shallow embedding of the `useRelationMultiple` relation-editing composable
(one-to-many, many-to-many, many-to-many-polymorphic relational edits) and
proofs about its display reconciliation, aggregate counts, pagination and
edit actions.

JavaScript records are modelled as association lists of string keys and
`Val` values; absence of a key models `undefined`.  Reactive refs and
computeds are modelled as pure functions of an explicit `CoreState`.
-/

namespace RelMult

/-- A JavaScript value as used by the composable: numbers, strings, `null`,
and plain objects (association lists in insertion order).  `undefined` is
modelled as the absence of a key (`Option.none` at lookup sites). -/
inductive Val where
  | vnum : Int → Val
  | vstr : String → Val
  | vnull : Val
  | vobj : List (String × Val) → Val

/-- A plain JavaScript object: keys with values, in insertion order. -/
abbrev Obj := List (String × Val)

/-- Property read `o[f]`: the first binding of the key (JS objects have
unique keys; all objects built here do). `none` models `undefined`. -/
def getV : Obj → String → Option Val
  | [], _ => none
  | (k, v) :: t, f => if k = f then some v else getV t f

/-- Spread-style shallow write `{ ...o, [f]: v }`: replaces the value in
place when the key exists, appends it otherwise (JS key-order semantics). -/
def setV : Obj → String → Val → Obj
  | [], f, v => [(f, v)]
  | (k, w) :: t, f, v => if k = f then (k, v) :: t else (k, w) :: setV t f v

/-- Nested read `o[f1][f2]`.  When `o[f1]` is not an object the code under
scrutiny would throw (on `null`/`undefined`) or read a wrapper property
(on primitives); both are modelled as `undefined`. -/
def get2V (o : Obj) (f1 f2 : String) : Option Val :=
  match getV o f1 with
  | some (Val.vobj inner) => getV inner f2
  | _ => none

/-- JS strict equality `===` on the values in play.  Two object values are
compared by reference in JS; distinct object literals are never equal, so
the object case is `false` (shared references are not modelled). -/
def jsEq : Val → Val → Bool
  | Val.vnum a, Val.vnum b => a == b
  | Val.vstr a, Val.vstr b => a == b
  | Val.vnull, Val.vnull => true
  | _, _ => false

/-- `===` lifted to possibly-undefined values (`undefined === undefined`
is `true`, `undefined === null` is `false`). -/
def jsEqO : Option Val → Option Val → Bool
  | none, none => true
  | some a, some b => jsEq a b
  | _, _ => false

/-- lodash `isNil`: `null` or `undefined`. -/
def isNilO : Option Val → Bool
  | none => true
  | some Val.vnull => true
  | _ => false

/-- JS truthiness of a value (`NaN` is not modelled). -/
def valTruthy : Val → Bool
  | Val.vnum n => n != 0
  | Val.vstr s => s != ""
  | Val.vnull => false
  | Val.vobj _ => true

/-- A primitive value, i.e. one on which `===` is reflexive. -/
def isPrim : Val → Bool
  | Val.vobj _ => false
  | _ => true

mutual
/-- lodash `merge` of a source value into a destination slot: plain objects
are merged recursively, any other source value overwrites the destination
(`undefined` sources are key absence, hence never reach this function). -/
def mergeVal : Val → Val → Val
  | d, Val.vobj s =>
      match d with
      | Val.vobj df => Val.vobj (mergeInto df s)
      | _ => Val.vobj (mergeInto [] s)
  | _, s => s

/-- lodash `merge(d, s)`: fold every binding of the source into the
destination, preserving destination key order and appending new keys. -/
def mergeInto : Obj → Obj → Obj
  | d, [] => d
  | d, (k, v) :: rest => mergeInto (mergeKey d k v) rest

/-- Merge a single key/value binding into a destination object. -/
def mergeKey : Obj → String → Val → Obj
  | [], k, v => [(k, v)]
  | (k1, v1) :: t, k, v =>
      if k1 = k then (k1, mergeVal v1 v) :: t else (k1, v1) :: mergeKey t k v
end

/-- Merge of a source value into a possibly-absent destination slot. -/
def mergeValO : Option Val → Val → Val
  | some w, v => mergeVal w v
  | none, v => v

/-- The keys of an object, in order. -/
def objKeys (o : Obj) : List String := o.map Prod.fst

/-- `key.startsWith('$')`, modelled on the character list of the key. -/
def isDollarKey (k : String) : Bool := k.data.head? == some '$'

/-- `cleanItem`: drop every binding whose key starts with `$`
(`Object.entries(item).reduce` keeping only non-`$` keys). -/
def cleanItem (item : Obj) : Obj := item.filter (fun p => !isDollarKey p.1)

/-- lodash `clamp(x, lo, hi)`. -/
def clampI (x lo hi : Int) : Int := max lo (min x hi)

/-- The preview query: only `page` and `limit` are consumed by the logic
modelled here (`fields`, `search`, `filter`, `sort` only shape requests). -/
structure RelationQueryMultiple where
  page : Int
  limit : Int

/-- `getPage(offset, items)`: when `limit` is `-1` the whole list, otherwise
`items.slice(clamp((page-1)*limit - offset, 0, n), clamp(page*limit - offset, 0, n))`. -/
def getPage {α : Type} (q : RelationQueryMultiple) (offset : Int) (items : List α) : List α :=
  if q.limit = -1 then items
  else
    let n : Int := (items.length : Int)
    let start := clampI ((q.page - 1) * q.limit - offset) 0 n
    let stop := clampI (q.page * q.limit - offset) 0 n
    (items.drop start.toNat).take (stop - start).toNat

/-- The relation metadata consumed by the composable.  Only the fields the
modelled logic reads are kept; `relationPrimaryKeyFields` is modelled as a
total map from collection name to primary-key field name. -/
inductive Relation where
  | o2m (relatedPrimaryKeyField reverseJunctionField : String)
      (sortFieldRaw : Option String)
  | m2m (junctionPrimaryKeyField junctionField relatedPrimaryKeyField reverseJunctionField : String)
      (sortFieldRaw : Option String)
  | m2a (junctionPrimaryKeyField junctionField collectionField reverseJunctionField : String)
      (relationPrimaryKeyFields : String → String)
      (sortFieldRaw : Option String)

/-- The `reverseJunctionField.field` of a relation. -/
def Relation.reverseJunctionField : Relation → String
  | Relation.o2m _ rjf _ => rjf
  | Relation.m2m _ _ _ rjf _ => rjf
  | Relation.m2a _ _ _ rjf _ _ => rjf

/-- The declared `sortField` before truthiness filtering. -/
def Relation.sortFieldRaw : Relation → Option String
  | Relation.o2m _ _ sf => sf
  | Relation.m2m _ _ _ _ sf => sf
  | Relation.m2a _ _ _ _ _ sf => sf

/-- The sort field as the code tests it: every guard is a JS truthiness
test (`if (sortField)` / `if (!sortField)`), so an empty string behaves
like an absent sort field. -/
def Relation.sortField (r : Relation) : Option String :=
  match r.sortFieldRaw with
  | some s => if s = "" then none else some s
  | none => none

/-- Whether the relation is one-to-many. -/
def Relation.isO2M : Relation → Bool
  | Relation.o2m .. => true
  | _ => false

/-- The `targetPKField` of `displayItems` and the `pkField` of `remove`:
the related primary key for o2m, the junction primary key otherwise. -/
def Relation.targetPKField : Relation → String
  | Relation.o2m rpk _ _ => rpk
  | Relation.m2m jpk _ _ _ _ => jpk
  | Relation.m2a jpk _ _ _ _ _ => jpk

/-- The staged, uncommitted edits (`ChangesItem`). Delete entries are the
values pushed from `item[pkField]`, hence possibly `undefined`. -/
structure ChangesItem where
  create : List Obj
  update : List Obj
  delete : List (Option Val)

/-- The raw `value` ref contents: an array of ids, a changes object,
`null`, or `undefined`. -/
inductive RawValue where
  | arr : List Val → RawValue
  | obj : ChangesItem → RawValue
  | null : RawValue
  | undef : RawValue

/-- The `_value` computed getter: falsy or array values give empty
changes, otherwise the changes object itself. -/
def rawChanges : RawValue → ChangesItem
  | RawValue.obj c => c
  | _ => ⟨[], [], []⟩

/-- The reactive state of one composable instance: the inputs
(`relation`, `previewQuery`, `itemId`, `value`) and the fetched refs. -/
structure CoreState where
  relation : Option Relation
  query : RelationQueryMultiple
  itemId : Val
  value : RawValue
  fetchedItems : List Obj
  existingItemCount : Nat
  existingSortMax : Option Int
  fetchedSelectItems : List Obj
  loading : Bool

/-- The changes seen through `_value`. -/
def CoreState.changes (s : CoreState) : ChangesItem := rawChanges s.value

/-- `isItemSelected`: the relation exists and the item carries the
reverse-junction field. -/
def isItemSelected (s : CoreState) (item : Obj) : Bool :=
  match s.relation with
  | none => false
  | some rel => (getV item rel.reverseJunctionField).isSome

/-- The `selected` computed: update entries (o2m) or create entries
(m2m/m2a) tagged with their index and type, filtered to those carrying the
reverse-junction field. -/
def selected (s : CoreState) : List Obj :=
  match s.relation with
  | none => []
  | some rel =>
    if rel.isO2M then
      ((s.changes.update.enum.map
        (fun p => setV (setV p.2 "$index" (Val.vnum (p.1 : Int))) "$type" (Val.vstr "updated"))).filter
        (isItemSelected s))
    else
      ((s.changes.create.enum.map
        (fun p => setV (setV p.2 "$index" (Val.vnum (p.1 : Int))) "$type" (Val.vstr "created"))).filter
        (isItemSelected s))

/-- `totalItemCount`: fetched count plus creates, plus selected for o2m. -/
def totalItemCount (s : CoreState) : Nat :=
  match s.relation with
  | some (Relation.o2m ..) =>
      s.existingItemCount + s.changes.create.length + (selected s).length
  | _ => s.existingItemCount + s.changes.create.length

/-- `getSortMax`: reduce with initial `null`, skipping `null` inputs and
taking `Math.max` of the rest. -/
def getSortMax (values : List (Option Int)) : Option Int :=
  values.foldl
    (fun mx v =>
      match mx with
      | none => v
      | some m =>
        match v with
        | none => some m
        | some x => some (max m x))
    none

/-- A sort-field value read from an item, as the `(number | null)` the
code's types promise.  Non-numeric values (including `undefined`, whose
JS `Math.max` would yield `NaN`) are conflated with `null`. -/
def asSortNum : Option Val → Option Int
  | some (Val.vnum n) => some n
  | _ => none

/-- The list of inputs `getSortMax` is applied to by `totalSortMax`. -/
def sortMaxInputs (s : CoreState) (rel : Relation) (sf : String) : List (Option Int) :=
  s.existingSortMax ::
    (s.changes.create.map (fun v => asSortNum (getV v sf)) ++
      (if rel.isO2M then (selected s).map (fun v => asSortNum (getV v sf)) else []))

/-- `totalSortMax`: `null` without a (truthy) sort field, otherwise the
fold over the existing maximum, the creates and (for o2m) the selected. -/
def totalSortMax (s : CoreState) : Option Int :=
  match s.relation with
  | none => none
  | some rel =>
    match rel.sortField with
    | none => none
    | some sf => getSortMax (sortMaxInputs s rel sf)

/-- `createdItems`: all creates for o2m, otherwise the creates not
carrying the reverse-junction field. -/
def createdItems (s : CoreState) : List Obj :=
  match s.relation with
  | none => []
  | some rel =>
    if rel.isO2M then s.changes.create
    else s.changes.create.filter (fun item => (getV item rel.reverseJunctionField).isNone)

/-- The `$`-metadata merged over an item that has a pending edit. -/
def updMeta (i : Nat) : Obj :=
  [("$type", Val.vstr "updated"), ("$index", Val.vnum (i : Int)), ("$edits", Val.vnum (i : Int))]

/-- The `$`-metadata merged over an item that has a pending delete. -/
def delMeta (i : Nat) : Obj :=
  [("$type", Val.vstr "deleted"), ("$index", Val.vnum (i : Int))]

/-- The `updatedItem` accumulator of `displayItems` for one fetched item:
the item merged into a fresh object and, when an update entry matches the
target primary key (the `typeof edit === 'object'` guard of that search
is vacuous here since update entries are objects), merged with the update
metadata and then the edit itself. -/
def displayUpdated (c : ChangesItem) (targetPKField : String) (item : Obj) : Obj :=
  match c.update.findIdx? (fun edit => jsEqO (getV edit targetPKField) (getV item targetPKField)) with
  | some ei => mergeInto (mergeInto (mergeInto [] item) (updMeta ei)) (c.update.getD ei [])
  | none => mergeInto [] item

/-- The display record `displayItems` builds for one fetched item: the
merged `updatedItem`, further merged with the delete metadata when the
item's target primary key is pending deletion. -/
def displayRecord (c : ChangesItem) (targetPKField : String) (item : Obj) : Obj :=
  match c.delete.findIdx? (fun id => jsEqO id (getV item targetPKField)) with
  | some di => mergeInto (displayUpdated c targetPKField item) (delMeta di)
  | none => displayUpdated c targetPKField item

/-- The match used to pair a selected item with its fetched display data
(`fetchedSelectItems.find`).  For m2a, non-string collection values (on
which the code would throw while resolving the primary-key field) are
modelled as no match. -/
def matchesSelectItem (rel : Relation) (item edit : Obj) : Bool :=
  match rel with
  | Relation.o2m rpk _ _ => jsEqO (getV edit rpk) (getV item rpk)
  | Relation.m2m _ jf rpk _ _ => jsEqO (get2V edit jf rpk) (get2V item jf rpk)
  | Relation.m2a _ jf cf _ pks _ =>
    match getV item cf, getV edit cf with
    | some (Val.vstr ic), some (Val.vstr ec) =>
        (ic == ec) && jsEqO (get2V edit jf (pks ec)) (get2V item jf (pks ic))
    | _, _ => false

/-- The selected items as displayed: each merged (`merge({}, item, edits)`)
with the first matching fetched display record, when one exists. -/
def selectedWithEdits (s : CoreState) (rel : Relation) : List Obj :=
  (selected s).map (fun item =>
    match s.fetchedSelectItems.find? (fun edit => matchesSelectItem rel item edit) with
    | none => item
    | some edits => mergeInto (mergeInto [] item) edits)

/-- The page slice of created items shown after the fetched and selected
ones (`getPage(existingItemCount + selected.length, createdItems)`). -/
def pageSliceNew (s : CoreState) : List Obj :=
  getPage s.query ((s.existingItemCount : Int) + ((selected s).length : Int)) (createdItems s)

/-- The created page slice tagged `{ ...item, $type: 'created', $index: index }`. -/
def createdTagged (s : CoreState) : List Obj :=
  (pageSliceNew s).enum.map
    (fun p => setV (setV p.2 "$type" (Val.vstr "created")) "$index" (Val.vnum (p.1 : Int)))

/-- The `items` list of `displayItems` before the conditional sort:
fetched display records, then selected items, then the created page. -/
def displayBase (s : CoreState) : List Obj :=
  match s.relation with
  | none => []
  | some rel =>
    s.fetchedItems.map (displayRecord s.changes rel.targetPKField) ++
      selectedWithEdits s rel ++ createdTagged s

/-- The numeric sort key of `a[sortField] - b[sortField]`: `null` coerces
to `0`; non-numeric keys (whose subtraction is `NaN`, compared as `0` by
the sort) are modelled as `0`. -/
def sortKey (sf : String) (o : Obj) : Int :=
  match getV o sf with
  | some (Val.vnum n) => n
  | _ => 0

/-- `displayItems`: the assembled list, sorted by the sort field unless
there is none or the paged total exceeds a positive limit. -/
def displayItems (s : CoreState) : List Obj :=
  match s.relation with
  | none => []
  | some rel =>
    let base := displayBase s
    match rel.sortField with
    | none => base
    | some sf =>
      if s.query.limit > 0 ∧ ((totalItemCount s : Int)) > s.query.limit then base
      else base.mergeSort (fun a b => decide (sortKey sf a - sortKey sf b ≤ 0))

/-- `reset()`: clear the value (to `undefined` for a new `+` item, an empty
array otherwise) and the fetched refs. -/
def resetState (s : CoreState) : CoreState :=
  { s with
      value := if jsEq s.itemId (Val.vstr "+") then RawValue.undef else RawValue.arr [],
      existingItemCount := 0,
      fetchedItems := [] }

/-- `updateValue()`: write the changes back to the value ref; when every
list is empty, reset instead. -/
def updateValue (s : CoreState) (c : ChangesItem) : CoreState :=
  let s' := { s with value := RawValue.obj c }
  if c.create.isEmpty && c.update.isEmpty && c.delete.isEmpty then resetState s' else s'

/-- The item actually staged by `create` for one argument: when a sort
field is configured and the item has no sort value, the next sort position
(`(totalSortMax || 0) + 1`, recomputed against the changes staged so far)
is spread in. -/
def createProcess (s : CoreState) (c : ChangesItem) (item : Obj) : Obj :=
  let sf := match s.relation with
    | some rel => rel.sortField
    | none => none
  match sf with
  | some f =>
      if isNilO (getV item f) then
        setV item f (Val.vnum ((totalSortMax { s with value := RawValue.obj c }).getD 0 + 1))
      else item
  | none => item

/-- One iteration of the `create` loop: push the cleaned, possibly
sort-augmented item. -/
def createOne (s : CoreState) (c : ChangesItem) (item : Obj) : ChangesItem :=
  { c with create := c.create ++ [cleanItem (createProcess s c item)] }

/-- The `create(...items)` action. -/
def createAct (s : CoreState) (items : List Obj) : CoreState :=
  updateValue s (items.foldl (createOne s) s.changes)

/-- JS `arr[i] = x` for the `$index`/`$edits` values used by `update`:
in-range numeric indices assign; out-of-range ones would create a sparse
array and non-numeric ones a plain property, neither of which is modelled
(the array is left unchanged). -/
def arraySet (l : List Obj) (iv : Val) (x : Obj) : List Obj :=
  match iv with
  | Val.vnum n => if 0 ≤ n ∧ n.toNat < l.length then l.set n.toNat x else l
  | _ => l

/-- One iteration of the `update` loop, dispatching on `$type`/`$index`. -/
def updateOne (c : ChangesItem) (item : Obj) : ChangesItem :=
  match getV item "$type", getV item "$index" with
  | none, _ => { c with update := c.update ++ [item] }
  | some _, none => { c with update := c.update ++ [item] }
  | some t, some i =>
    if jsEq t (Val.vstr "created") then
      { c with create := arraySet c.create i (cleanItem item) }
    else if jsEq t (Val.vstr "updated") then
      { c with update := arraySet c.update i (cleanItem item) }
    else if jsEq t (Val.vstr "deleted") then
      match getV item "$edits" with
      | some e => { c with update := arraySet c.update e (cleanItem item) }
      | none => { c with update := c.update ++ [cleanItem item] }
    else c

/-- The `update(...items)` action (requires a relation). -/
def updateAct (s : CoreState) (items : List Obj) : CoreState :=
  match s.relation with
  | none => s
  | some _ => updateValue s (items.foldl updateOne s.changes)

/-- JS `arr.splice(i, 1)` for the `$index` values used by `remove`:
negative indices count from the end, overlong ones remove nothing;
non-numeric indices coerce (numeric strings are modelled as `0`). -/
def spliceOut {α : Type} (l : List α) (iv : Val) : List α :=
  match iv with
  | Val.vnum n =>
      let len : Int := (l.length : Int)
      let j := if n < 0 then max (len + n) 0 else min n len
      l.eraseIdx j.toNat
  | _ => l.eraseIdx 0

/-- One iteration of the `remove` loop, dispatching on `$type`/`$index`. -/
def removeOne (s : CoreState) (pkField : String) (c : ChangesItem) (item : Obj) : ChangesItem :=
  match getV item "$type", getV item "$index" with
  | none, _ => { c with delete := c.delete ++ [getV item pkField] }
  | some _, none => { c with delete := c.delete ++ [getV item pkField] }
  | some t, some i =>
    if jsEq t (Val.vstr "created") then
      { c with create := spliceOut c.create i }
    else if jsEq t (Val.vstr "updated") then
      if isItemSelected s item then { c with update := spliceOut c.update i }
      else { c with delete := c.delete ++ [getV item pkField] }
    else if jsEq t (Val.vstr "deleted") then
      { c with delete := spliceOut c.delete i }
    else c

/-- The `remove(...items)` action (requires a relation). -/
def removeAct (s : CoreState) (items : List Obj) : CoreState :=
  match s.relation with
  | none => s
  | some rel => updateValue s (items.foldl (removeOne s rel.targetPKField) s.changes)

/-- JS `Array.prototype.map` over a callback that may throw: the first
throw aborts the whole call. -/
def mapExcept {α β : Type} (f : α → Except String β) : List α → Except String (List β)
  | [] => Except.ok []
  | x :: t =>
    match f x with
    | Except.error e => Except.error e
    | Except.ok y =>
      match mapExcept f t with
      | Except.error e => Except.error e
      | Except.ok ys => Except.ok (y :: ys)

/-- The object `select` builds for one id (object-literal spreads are
last-write-wins, hence `setV`); for m2a a falsy collection throws. -/
def selectionItem (rel : Relation) (itemId : Val) (collection : Option String) (id : Val) :
    Except String Obj :=
  match rel with
  | Relation.o2m rpk rjf _ =>
      Except.ok (setV (setV [] rjf itemId) rpk id)
  | Relation.m2m _ jf rpk rjf _ =>
      Except.ok (setV (setV [] rjf itemId) jf (Val.vobj (setV [] rpk id)))
  | Relation.m2a _ jf cf rjf pks _ =>
      match collection with
      | none => Except.error "You need to provide a collection on an m2a"
      | some coll =>
        if coll = "" then Except.error "You need to provide a collection on an m2a"
        else
          Except.ok (setV (setV (setV [] rjf itemId) cf (Val.vstr coll)) jf
            (Val.vobj (setV [] (pks coll) id)))

/-- The `select(items, collection?)` action: map the ids (a throw inside
the map aborts the call before any change is staged), then route through
`update` for o2m and `create` otherwise.  The second component is the
propagated error message, if any. -/
def selectAct (s : CoreState) (ids : List Val) (collection : Option String) :
    CoreState × Option String :=
  match s.relation with
  | none => (s, none)
  | some rel =>
    match mapExcept (selectionItem rel s.itemId collection) ids with
    | Except.error e => (s, some e)
    | Except.ok sel =>
      if rel.isO2M then (updateAct s sel, none) else (createAct s sel, none)

/-- The responses of the three requests `updateFetchedItems` can make. -/
structure ApiEnv where
  countResult : Except String Nat
  sortMaxResult : Except String (Option Int)
  itemsResult : Except String (List Obj)

/-- The outcome of a fetch routine: the state it leaves behind, whether
`unexpectedError` was invoked, and the error it let propagate, if any. -/
structure FetchOutcome where
  state : CoreState
  unexpectedErrorCalled : Bool
  thrown : Option String

/-- `updateFetchedItems`: early-out without a relation or a usable item
id; otherwise run the count, sort-max and item requests inside the single
`try`/`catch` whose `finally` clears `loading` and whose `catch` routes
the error to `unexpectedError`. -/
def updateFetchedItems (s : CoreState) (env : ApiEnv) : FetchOutcome :=
  match s.relation with
  | none => ⟨s, false, none⟩
  | some rel =>
    if !valTruthy s.itemId || jsEq s.itemId (Val.vstr "+") then
      ⟨{ s with existingItemCount := 0, fetchedItems := [] }, false, none⟩
    else
      let s1 := { s with loading := true }
      match env.countResult with
      | Except.error _ => ⟨{ s1 with loading := false }, true, none⟩
      | Except.ok n =>
        let s2 := { s1 with existingItemCount := n }
        if jsEq s.itemId (Val.vstr "+") then ⟨{ s2 with loading := false }, false, none⟩
        else
          match rel.sortField with
          | some _ =>
            match env.sortMaxResult with
            | Except.error _ => ⟨{ s2 with loading := false }, true, none⟩
            | Except.ok m =>
              match env.itemsResult with
              | Except.error _ => ⟨{ s2 with existingSortMax := m, loading := false }, true, none⟩
              | Except.ok its =>
                ⟨{ s2 with existingSortMax := m, fetchedItems := its, loading := false }, false, none⟩
          | none =>
            match env.itemsResult with
            | Except.error _ => ⟨{ s2 with loading := false }, true, none⟩
            | Except.ok its => ⟨{ s2 with fetchedItems := its, loading := false }, false, none⟩

/-- `getPage(existingItemCount, selected)` as used to fetch display data
for the selected items of the current page. -/
def selectedOnPage (s : CoreState) : List Obj :=
  getPage s.query (s.existingItemCount : Int) (selected s)

/-- `loadSelectedDisplayO2M`: clears the fetched display data when nothing
is selected on the page, otherwise performs a fetch that sits in no
`try`/`catch` — a failure is returned to the caller unhandled and the
state (including `loading`) is untouched. -/
def loadSelectedDisplayO2M (s : CoreState) (itemsResult : Except String (List Obj)) :
    Except String CoreState :=
  if (selectedOnPage s).isEmpty then Except.ok { s with fetchedSelectItems := [] }
  else
    match itemsResult with
    | Except.error e => Except.error e
    | Except.ok its => Except.ok { s with fetchedSelectItems := its }

theorem getV_setV_self (o : Obj) (f : String) (v : Val) : getV (setV o f v) f = some v := by
  induction o with
  | nil => simp [setV, getV]
  | cons p t ih =>
    obtain ⟨k, w⟩ := p
    by_cases h : k = f
    · simp [setV, h, getV]
    · simp [setV, h, getV, ih]

theorem getV_setV_ne (o : Obj) (f : String) (v : Val) (g : String) (h : f ≠ g) :
    getV (setV o f v) g = getV o g := by
  induction o with
  | nil => simp [setV, getV, h]
  | cons p t ih =>
    obtain ⟨k, w⟩ := p
    by_cases hk : k = f
    · subst hk
      simp [setV, getV, h]
    · simp [setV, hk, getV, ih]

theorem getV_eq_none_of_not_mem (o : Obj) (k : String) (h : k ∉ objKeys o) : getV o k = none := by
  induction o with
  | nil => simp [getV]
  | cons p t ih =>
    obtain ⟨k1, v1⟩ := p
    simp only [objKeys, List.map_cons, List.mem_cons, not_or] at h
    have hne : k1 ≠ k := fun hh => h.1 hh.symm
    simp [getV, hne, ih (by simpa [objKeys] using h.2)]

theorem mergeKey_getV_self (d : Obj) (k : String) (v : Val) :
    getV (mergeKey d k v) k = some (mergeValO (getV d k) v) := by
  induction d with
  | nil => simp [mergeKey, getV, mergeValO]
  | cons p t ih =>
    obtain ⟨k1, v1⟩ := p
    by_cases h : k1 = k
    · simp [mergeKey, h, getV, mergeValO]
    · simp [mergeKey, h, getV, ih]

theorem mergeKey_getV_ne (d : Obj) (k : String) (v : Val) (f : String) (h : k ≠ f) :
    getV (mergeKey d k v) f = getV d f := by
  induction d with
  | nil => simp [mergeKey, getV, h]
  | cons p t ih =>
    obtain ⟨k1, v1⟩ := p
    by_cases h1 : k1 = k
    · subst h1
      simp [mergeKey, getV, h]
    · by_cases h2 : k1 = f
      · subst h2
        simp [mergeKey, h1, getV]
      · simp [mergeKey, h1, getV, h2, ih]

theorem mergeInto_getV (s : Obj) (hnd : (objKeys s).Nodup) (d : Obj) (f : String) :
    getV (mergeInto d s) f =
      match getV s f with
      | some v => some (mergeValO (getV d f) v)
      | none => getV d f := by
  induction s generalizing d with
  | nil => simp [mergeInto, getV]
  | cons p rest ih =>
    obtain ⟨k, v⟩ := p
    simp only [objKeys, List.map_cons, List.nodup_cons] at hnd
    have hk : k ∉ objKeys rest := hnd.1
    have hnd' : (objKeys rest).Nodup := hnd.2
    rw [mergeInto, ih hnd']
    by_cases h : k = f
    · subst h
      rw [getV_eq_none_of_not_mem rest k hk]
      simp [getV, mergeKey_getV_self]
    · simp [getV, h, mergeKey_getV_ne d k v f h]

theorem mergeKey_not_mem (d : Obj) (k : String) (v : Val) (h : k ∉ objKeys d) :
    mergeKey d k v = d ++ [(k, v)] := by
  induction d with
  | nil => simp [mergeKey]
  | cons p t ih =>
    obtain ⟨k1, v1⟩ := p
    simp only [objKeys, List.map_cons, List.mem_cons, not_or] at h
    have hne : k1 ≠ k := fun hh => h.1 hh.symm
    simp [mergeKey, hne, ih (by simpa [objKeys] using h.2)]

theorem mergeInto_disjoint (s : Obj) (hnd : (objKeys s).Nodup) (d : Obj)
    (h : ∀ k ∈ objKeys s, k ∉ objKeys d) : mergeInto d s = d ++ s := by
  induction s generalizing d with
  | nil => simp [mergeInto]
  | cons p rest ih =>
    obtain ⟨k, v⟩ := p
    simp only [objKeys, List.map_cons, List.nodup_cons] at hnd
    have hmem : k ∈ objKeys ((k, v) :: rest) := by simp [objKeys]
    rw [mergeInto, mergeKey_not_mem d k v (h k hmem)]
    rw [ih hnd.2 (d ++ [(k, v)]) ?_]
    · simp
    · intro k2 hk2
      simp only [objKeys, List.map_append, List.mem_append] at *
      rintro (hd | hs)
      · exact h k2 (by simp [objKeys, hk2]) hd
      · simp only [objKeys, List.map_cons, List.map_nil, List.mem_singleton] at hs
        exact hnd.1 (by simpa [hs] using hk2)

theorem mergeInto_nil (s : Obj) (hnd : (objKeys s).Nodup) : mergeInto [] s = s := by
  simpa using mergeInto_disjoint s hnd [] (by simp [objKeys])

theorem mergeValO_vstr (o : Option Val) (t : String) : mergeValO o (Val.vstr t) = Val.vstr t := by
  cases o with
  | none => rfl
  | some w => cases w <;> simp [mergeValO, mergeVal]

theorem mergeValO_vnum (o : Option Val) (n : Int) : mergeValO o (Val.vnum n) = Val.vnum n := by
  cases o with
  | none => rfl
  | some w => cases w <;> simp [mergeValO, mergeVal]


theorem updateValue_changes (s : CoreState) (c : ChangesItem) : (updateValue s c).changes = c := by
  obtain ⟨cc, cu, cd⟩ := c
  unfold updateValue
  by_cases h : cc.isEmpty && cu.isEmpty && cd.isEmpty
  · simp only [h, if_true]
    simp only [Bool.and_eq_true, List.isEmpty_iff] at h
    obtain ⟨⟨h1, h2⟩, h3⟩ := h
    subst h1; subst h2; subst h3
    simp only [CoreState.changes, resetState]
    split <;> rfl
  · simp only [h, Bool.false_eq_true, if_false]
    rfl

theorem updateValue_relation (s : CoreState) (c : ChangesItem) :
    (updateValue s c).relation = s.relation := by
  unfold updateValue
  split
  · rfl
  · rfl

theorem updateValue_itemId (s : CoreState) (c : ChangesItem) :
    (updateValue s c).itemId = s.itemId := by
  unfold updateValue
  split
  · rfl
  · rfl

theorem removeAct_changes (s : CoreState) (rel : Relation) (h : s.relation = some rel)
    (items : List Obj) :
    (removeAct s items).changes = items.foldl (removeOne s rel.targetPKField) s.changes := by
  unfold removeAct
  rw [h]
  exact updateValue_changes _ _

theorem removeAct_relation (s : CoreState) (items : List Obj) :
    (removeAct s items).relation = s.relation := by
  unfold removeAct
  cases h : s.relation
  · exact h
  · rw [updateValue_relation]
    exact h

theorem createAct_changes (s : CoreState) (items : List Obj) :
    (createAct s items).changes = items.foldl (createOne s) s.changes :=
  updateValue_changes _ _

theorem updateAct_changes (s : CoreState) (rel : Relation) (h : s.relation = some rel)
    (items : List Obj) :
    (updateAct s items).changes = items.foldl updateOne s.changes := by
  unfold updateAct
  rw [h]
  exact updateValue_changes _ _

theorem getSortMax_some (l : List (Option Int)) :
    ∀ m : Int,
      l.foldl
        (fun mx v =>
          match mx with
          | none => v
          | some m =>
            match v with
            | none => some m
            | some x => some (max m x))
        (some m) =
      some (l.reduceOption.foldl max m) := by
  induction l with
  | nil => intro m; rfl
  | cons v t ih =>
    intro m
    cases v with
    | none => simp [ih m]
    | some x => simp [List.reduceOption, ih (max m x)]

theorem getSortMax_eq_max? (l : List (Option Int)) : getSortMax l = l.reduceOption.max? := by
  induction l with
  | nil => rfl
  | cons v t ih =>
    cases v with
    | none => simpa [getSortMax, List.reduceOption] using ih
    | some x =>
      simp only [getSortMax, List.foldl_cons] at *
      rw [getSortMax_some]
      simp [List.reduceOption, List.max?]

theorem reduceOption_eq_nil_iff (l : List (Option Int)) :
    l.reduceOption = [] ↔ ∀ x ∈ l, x = none := by
  induction l with
  | nil => simp
  | cons v t ih =>
    cases v with
    | none => simp [List.reduceOption, ih]
    | some x => simp [List.reduceOption]

theorem getSortMax_eq_none_iff (l : List (Option Int)) :
    getSortMax l = none ↔ ∀ x ∈ l, x = none := by
  rw [getSortMax_eq_max?, List.max?_eq_none_iff, reduceOption_eq_nil_iff]

theorem getSortMax_eq_some_iff (l : List (Option Int)) (m : Int) :
    getSortMax l = some m ↔ (some m ∈ l ∧ ∀ x : Int, some x ∈ l → x ≤ m) := by
  rw [getSortMax_eq_max?]
  haveI : Std.Antisymm (fun a b : Int => a ≤ b) := ⟨fun h1 h2 => le_antisymm h1 h2⟩
  rw [List.max?_eq_some_iff (fun a => le_refl a) max_choice (fun _ _ _ => max_le_iff)]
  constructor
  · rintro ⟨h1, h2⟩
    exact ⟨List.reduceOption_mem_iff.mp h1, fun x hx => h2 x (List.reduceOption_mem_iff.mpr hx)⟩
  · rintro ⟨h1, h2⟩
    exact ⟨List.reduceOption_mem_iff.mpr h1, fun x hx => h2 x (List.reduceOption_mem_iff.mp hx)⟩


theorem enumFrom_filter_window {α : Type} (l : List α) :
    ∀ (j a b : Nat),
      ((List.enumFrom j l).filter (fun p => decide (a ≤ p.1) && decide (p.1 < b))).map Prod.snd =
        (l.drop (a - j)).take ((b - j) - (a - j)) := by
  induction l with
  | nil =>
    intro j a b
    simp
  | cons x t ih =>
    intro j a b
    rw [List.enumFrom_cons, List.filter_cons]
    by_cases hA : a ≤ j
    · by_cases hB : j < b
      · have hcond : (decide (a ≤ (j, x).1) && decide ((j, x).1 < b)) = true := by
          simp [hA, hB]
        rw [hcond]
        simp only [if_true, List.map_cons]
        have h1 : a - j = 0 := by omega
        have h2 : (b - j) - (a - j) = ((b - (j + 1)) - (a - (j + 1))) + 1 := by omega
        have h3 : a - (j + 1) = 0 := by omega
        rw [h2, h1, List.drop_zero, List.take_succ_cons, ih (j + 1) a b, h3, List.drop_zero]
      · have hcond : (decide (a ≤ (j, x).1) && decide ((j, x).1 < b)) = false := by
          simp [hB]
        rw [hcond]
        simp only [Bool.false_eq_true, if_false]
        rw [ih (j + 1) a b]
        have h2 : (b - j) - (a - j) = 0 := by omega
        have h3 : (b - (j + 1)) - (a - (j + 1)) = 0 := by omega
        rw [h2, h3, List.take_zero, List.take_zero]
    · have hcond : (decide (a ≤ (j, x).1) && decide ((j, x).1 < b)) = false := by
        simp [hA]
      rw [hcond]
      simp only [Bool.false_eq_true, if_false]
      rw [ih (j + 1) a b]
      have h1 : a - j = (a - (j + 1)) + 1 := by omega
      have h2 : (b - j) - (a - j) = (b - (j + 1)) - (a - (j + 1)) := by omega
      rw [h2, h1, List.drop_succ_cons]

/-- Claim C4: for every offset and list of locally held items, the page
slice is `items.slice(clamp((page-1)*limit - offset, 0, n), clamp(page*limit - offset, 0, n))`,
i.e. exactly those items whose global position `offset + i` falls inside
the requested page window; when `limit` is `-1` the whole list is
returned unsliced. -/
theorem C4_getPage_window {α : Type} (q : RelationQueryMultiple) (offset : Int) (items : List α) :
    (q.limit = -1 → getPage q offset items = items) ∧
      (q.limit ≠ -1 →
        getPage q offset items =
          (items.drop (clampI ((q.page - 1) * q.limit - offset) 0 (items.length : Int)).toNat).take
            ((clampI (q.page * q.limit - offset) 0 (items.length : Int)).toNat -
              (clampI ((q.page - 1) * q.limit - offset) 0 (items.length : Int)).toNat) ∧
        getPage q offset items =
          ((items.enum.filter (fun p =>
            decide ((q.page - 1) * q.limit ≤ offset + (p.1 : Int)) &&
              decide (offset + (p.1 : Int) < q.page * q.limit))).map Prod.snd)) := by
  constructor
  · intro h
    simp [getPage, h]
  · intro h
    have hslice : getPage q offset items =
        (items.drop (clampI ((q.page - 1) * q.limit - offset) 0 (items.length : Int)).toNat).take
          ((clampI (q.page * q.limit - offset) 0 (items.length : Int)).toNat -
            (clampI ((q.page - 1) * q.limit - offset) 0 (items.length : Int)).toNat) := by
      simp only [getPage, h, if_false]
      congr 1
      have hu0 : 0 ≤ clampI ((q.page - 1) * q.limit - offset) 0 (items.length : Int) :=
        le_max_left _ _
      have hv0 : 0 ≤ clampI (q.page * q.limit - offset) 0 (items.length : Int) :=
        le_max_left _ _
      omega
    refine ⟨hslice, ?_⟩
    rw [hslice]
    have hw := enumFrom_filter_window items 0
      (clampI ((q.page - 1) * q.limit - offset) 0 (items.length : Int)).toNat
      (clampI (q.page * q.limit - offset) 0 (items.length : Int)).toNat
    simp only [Nat.sub_zero] at hw
    rw [← List.enum] at hw
    rw [← hw]
    congr 1
    apply List.filter_congr
    intro p hp
    obtain ⟨i, v⟩ := p
    have hi : i < items.length := (List.mem_enum hp).1
    have e1 : ((clampI ((q.page - 1) * q.limit - offset) 0 (items.length : Int)).toNat ≤ i) ↔
        ((q.page - 1) * q.limit ≤ offset + (i : Int)) := by
      unfold clampI
      rw [max_def, min_def]
      split_ifs <;> omega
    have e2 : (i < (clampI (q.page * q.limit - offset) 0 (items.length : Int)).toNat) ↔
        (offset + (i : Int) < q.page * q.limit) := by
      unfold clampI
      rw [max_def, min_def]
      split_ifs <;> omega
    simp only [decide_eq_decide.mpr e1, decide_eq_decide.mpr e2]


/-- Claim C2: for every relation, `totalItemCount` is the fetched
existing-item count plus the number of create entries, and for an o2m
relation additionally the number of selected items; for m2m and m2a the
selected items are not added separately. -/
theorem C2_totalItemCount (s : CoreState) (rel : Relation) (h : s.relation = some rel) :
    totalItemCount s =
      s.existingItemCount + s.changes.create.length +
        (if rel.isO2M then (selected s).length else 0) := by
  cases rel <;> simp [totalItemCount, h, Relation.isO2M]

/-- Witness for C2: an o2m relation with 4 fetched items, one staged
create and one selected update entry counts 6; an m2m one with the same
changes counts 5. -/
theorem C2_totalItemCount_witness :
    totalItemCount
        { relation := some (Relation.o2m "id" "rev" none),
          query := ⟨1, 10⟩,
          itemId := Val.vnum 7,
          value := RawValue.obj
            ⟨[[("a", Val.vnum 1)]], [[("rev", Val.vnum 7), ("id", Val.vnum 3)]], []⟩,
          fetchedItems := [],
          existingItemCount := 4,
          existingSortMax := none,
          fetchedSelectItems := [],
          loading := false } = 6 ∧
    totalItemCount
        { relation := some (Relation.m2m "jid" "junc" "id" "rev" none),
          query := ⟨1, 10⟩,
          itemId := Val.vnum 7,
          value := RawValue.obj
            ⟨[[("a", Val.vnum 1)]], [[("rev", Val.vnum 7), ("id", Val.vnum 3)]], []⟩,
          fetchedItems := [],
          existingItemCount := 4,
          existingSortMax := none,
          fetchedSelectItems := [],
          loading := false } = 5 := by
  constructor
  · exact (C2_totalItemCount _ (Relation.o2m "id" "rev" none) rfl).trans (by decide)
  · exact (C2_totalItemCount _ (Relation.m2m "jid" "junc" "id" "rev" none) rfl).trans (by decide)

/-- Claim C3: `totalSortMax` is null without a sort field; otherwise it is
`getSortMax` of the existing sort maximum, the create entries' sort values
and (for o2m) the selected items' sort values, which is the maximum of the
non-null inputs and is null exactly when every input is null. -/
theorem C3_totalSortMax (s : CoreState) (rel : Relation) (h : s.relation = some rel) :
    (rel.sortField = none → totalSortMax s = none) ∧
      (∀ sf, rel.sortField = some sf →
        totalSortMax s = getSortMax (sortMaxInputs s rel sf) ∧
          (totalSortMax s = none ↔ ∀ x ∈ sortMaxInputs s rel sf, x = none) ∧
          (∀ m : Int, totalSortMax s = some m ↔
            (some m ∈ sortMaxInputs s rel sf ∧
              ∀ x : Int, some x ∈ sortMaxInputs s rel sf → x ≤ m))) := by
  constructor
  · intro hsf
    simp [totalSortMax, h, hsf]
  · intro sf hsf
    have ht : totalSortMax s = getSortMax (sortMaxInputs s rel sf) := by
      simp [totalSortMax, h, hsf]
    refine ⟨ht, ?_, ?_⟩
    · rw [ht]
      exact getSortMax_eq_none_iff _
    · intro m
      rw [ht]
      exact getSortMax_eq_some_iff _ m

/-- Witness for C3: with existing maximum 3, created sort values 5 and
null, and an o2m selected entry with sort value 4, the total is 5. -/
theorem C3_totalSortMax_witness :
    totalSortMax
        { relation := some (Relation.o2m "id" "rev" (some "sort")),
          query := ⟨1, 10⟩,
          itemId := Val.vnum 7,
          value := RawValue.obj
            ⟨[[("sort", Val.vnum 5)], [("a", Val.vnum 1)]],
              [[("rev", Val.vnum 7), ("id", Val.vnum 3), ("sort", Val.vnum 4)]], []⟩,
          fetchedItems := [],
          existingItemCount := 4,
          existingSortMax := some 3,
          fetchedSelectItems := [],
          loading := false } = some 5 := by
  refine Eq.trans (((C3_totalSortMax _ (Relation.o2m "id" "rev" (some "sort")) rfl).2
    "sort" rfl).1) (by decide)


/-- Claim C5: `displayItems` is sorted ascending by the sort field exactly
when one is configured and either the limit is not positive or the total
item count does not exceed it (the sorted list is a permutation of the
assembled one); in every other case the assembled
fetched-then-selected-then-created list is returned unsorted. -/
theorem C5_displayItems_sorting (s : CoreState) (rel : Relation) (h : s.relation = some rel) :
    (∀ sf, rel.sortField = some sf →
      ¬(s.query.limit > 0 ∧ ((totalItemCount s : Int)) > s.query.limit) →
        (displayItems s).Perm (displayBase s) ∧
          (displayItems s).Pairwise (fun a b => sortKey sf a ≤ sortKey sf b)) ∧
      ((rel.sortField = none ∨ (s.query.limit > 0 ∧ ((totalItemCount s : Int)) > s.query.limit)) →
        displayItems s = displayBase s) := by
  constructor
  · intro sf hsf hcond
    have hd : displayItems s =
        (displayBase s).mergeSort (fun a b => decide (sortKey sf a - sortKey sf b ≤ 0)) := by
      simp [displayItems, h, hsf, hcond]
    constructor
    · rw [hd]
      exact List.mergeSort_perm _ _
    · rw [hd]
      have hp := @List.sorted_mergeSort Obj
        (fun a b => decide (sortKey sf a - sortKey sf b ≤ 0))
        (fun a b c h1 h2 => by
          simp only [decide_eq_true_eq] at *
          omega)
        (fun a b => by
          simp only [Bool.or_eq_true, decide_eq_true_eq]
          omega)
        (displayBase s)
      exact hp.imp (fun hab => by
        simp only [decide_eq_true_eq] at hab
        omega)
  · intro hc
    rcases hc with hsf | hcond
    · simp [displayItems, h, hsf]
    · cases hsf : rel.sortField with
      | none => simp [displayItems, h, hsf]
      | some sf => simp [displayItems, h, hsf, hcond]

/-- Witness for C5: an m2m relation with two staged creates (sort values
3 and 1), limit 10 and an empty fetch: the display is sorted by the sort
field and permutes the assembled list. -/
theorem C5_displayItems_sorting_witness :
    (displayItems
        { relation := some (Relation.m2m "jid" "junc" "id" "rev" (some "sort")),
          query := ⟨1, 10⟩,
          itemId := Val.vnum 7,
          value := RawValue.obj ⟨[[("sort", Val.vnum 3)], [("sort", Val.vnum 1)]], [], []⟩,
          fetchedItems := [],
          existingItemCount := 0,
          existingSortMax := none,
          fetchedSelectItems := [],
          loading := false }).Pairwise (fun a b => sortKey "sort" a ≤ sortKey "sort" b) := by
  exact ((C5_displayItems_sorting _ (Relation.m2m "jid" "junc" "id" "rev" (some "sort")) rfl).1
    "sort" rfl (by decide)).2


/-- Witness for C4: page 2 with limit 2 over an offset of 1 earlier item
picks the local items at global positions 2 and 3. -/
theorem C4_getPage_window_witness :
    getPage ⟨2, 2⟩ 1 ([10, 20, 30, 40] : List Int) = [20, 30] := by
  exact ((C4_getPage_window ⟨2, 2⟩ 1 ([10, 20, 30, 40] : List Int)).2 (by decide)).1.trans
    (by decide)

/-- Whether one of the requests issued by `updateFetchedItems` fails (the
sort-max request only exists with a sort field, the item request only
runs when the ones before it succeeded). -/
def fetchFails (rel : Relation) (env : ApiEnv) : Bool :=
  match env.countResult with
  | Except.error _ => true
  | Except.ok _ =>
    match rel.sortField with
    | some _ =>
      match env.sortMaxResult with
      | Except.error _ => true
      | Except.ok _ =>
        match env.itemsResult with
        | Except.error _ => true
        | Except.ok _ => false
    | none =>
      match env.itemsResult with
      | Except.error _ => true
      | Except.ok _ => false

/-- Claim C6 (amended): the fetches of `updateFetchedItems` are covered by
its single try/catch — no failure propagates, the loading flag ends up
false, and `unexpectedError` is invoked exactly when a request failed.
(The selected-display loaders are not covered; see the counterexample.) -/
theorem C6_updateFetchedItems_handling (s : CoreState) (env : ApiEnv) :
    (updateFetchedItems s env).thrown = none ∧
      (∀ rel, s.relation = some rel → valTruthy s.itemId = true →
        jsEq s.itemId (Val.vstr "+") = false →
          ((updateFetchedItems s env).state.loading = false ∧
            (updateFetchedItems s env).unexpectedErrorCalled = fetchFails rel env)) := by
  constructor
  · unfold updateFetchedItems
    cases h : s.relation with
    | none => rfl
    | some rel =>
      by_cases hg : (!valTruthy s.itemId || jsEq s.itemId (Val.vstr "+")) = true
      · simp [hg]
      · simp only [Bool.not_eq_true] at hg
        simp only [hg, Bool.false_eq_true, if_false]
        cases env.countResult with
        | error e => rfl
        | ok n =>
          by_cases hp : jsEq s.itemId (Val.vstr "+") = true
          · simp [hp]
          · simp only [Bool.not_eq_true] at hp
            simp only [hp, Bool.false_eq_true, if_false]
            cases rel.sortField with
            | none => cases env.itemsResult <;> rfl
            | some sf =>
              cases env.sortMaxResult with
              | error e => rfl
              | ok m => cases env.itemsResult <;> rfl
  · intro rel hrel htruthy hplus
    have hg : (!valTruthy s.itemId || jsEq s.itemId (Val.vstr "+")) = false := by
      simp [htruthy, hplus]
    unfold updateFetchedItems
    rw [hrel]
    simp only [hg, Bool.false_eq_true, if_false]
    unfold fetchFails
    cases env.countResult with
    | error e => exact ⟨rfl, rfl⟩
    | ok n =>
      simp only [hplus, Bool.false_eq_true, if_false]
      cases rel.sortField with
      | none => cases env.itemsResult <;> exact ⟨rfl, rfl⟩
      | some sf =>
        cases env.sortMaxResult with
        | error e => exact ⟨rfl, rfl⟩
        | ok m => cases env.itemsResult <;> exact ⟨rfl, rfl⟩

/-- Witness for C6 (amended): a failing count request is caught
(`unexpectedError` runs, nothing propagates) and loading is reset. -/
theorem C6_updateFetchedItems_handling_witness :
    (updateFetchedItems
        { relation := some (Relation.o2m "id" "rev" none),
          query := ⟨1, 10⟩,
          itemId := Val.vnum 7,
          value := RawValue.obj ⟨[], [], []⟩,
          fetchedItems := [],
          existingItemCount := 0,
          existingSortMax := none,
          fetchedSelectItems := [],
          loading := false }
        ⟨Except.error "network failure", Except.ok none, Except.ok []⟩).thrown = none ∧
      (updateFetchedItems
        { relation := some (Relation.o2m "id" "rev" none),
          query := ⟨1, 10⟩,
          itemId := Val.vnum 7,
          value := RawValue.obj ⟨[], [], []⟩,
          fetchedItems := [],
          existingItemCount := 0,
          existingSortMax := none,
          fetchedSelectItems := [],
          loading := false }
        ⟨Except.error "network failure", Except.ok none, Except.ok []⟩).state.loading = false ∧
      (updateFetchedItems
        { relation := some (Relation.o2m "id" "rev" none),
          query := ⟨1, 10⟩,
          itemId := Val.vnum 7,
          value := RawValue.obj ⟨[], [], []⟩,
          fetchedItems := [],
          existingItemCount := 0,
          existingSortMax := none,
          fetchedSelectItems := [],
          loading := false }
        ⟨Except.error "network failure", Except.ok none, Except.ok []⟩).unexpectedErrorCalled =
        true := by
  have h := C6_updateFetchedItems_handling
    { relation := some (Relation.o2m "id" "rev" none),
      query := ⟨1, 10⟩,
      itemId := Val.vnum 7,
      value := RawValue.obj ⟨[], [], []⟩,
      fetchedItems := [],
      existingItemCount := 0,
      existingSortMax := none,
      fetchedSelectItems := [],
      loading := false }
    ⟨Except.error "network failure", Except.ok none, Except.ok []⟩
  have h2 := h.2 (Relation.o2m "id" "rev" none) rfl (by decide) (by decide)
  exact ⟨h.1, h2.1, h2.2.trans (by decide)⟩

/-- Counterexample to C6 as stated: the fetch of `loadSelectedDisplayO2M`
sits in no try/catch — with one o2m item selected on the page, a failing
request propagates to the caller unhandled, and the loading flag (here
`true`) is not touched by any handler. -/
theorem C6_counterexample :
    loadSelectedDisplayO2M
        { relation := some (Relation.o2m "id" "rev" none),
          query := ⟨1, 10⟩,
          itemId := Val.vnum 7,
          value := RawValue.obj ⟨[], [[("rev", Val.vnum 7), ("id", Val.vnum 3)]], []⟩,
          fetchedItems := [],
          existingItemCount := 0,
          existingSortMax := none,
          fetchedSelectItems := [],
          loading := true }
        (Except.error "network failure") = Except.error "network failure" := by
  rfl


theorem getV_filter (p : String → Bool) (item : Obj) (k : String) :
    getV (item.filter (fun q => p q.1)) k = if p k then getV item k else none := by
  induction item with
  | nil => simp [getV]
  | cons q t ih =>
    obtain ⟨k1, v1⟩ := q
    by_cases hp : p k1
    · rw [List.filter_cons_of_pos (by simpa using hp)]
      by_cases hk : k1 = k
      · subst hk
        simp [getV, hp]
      · simp [getV, hk, ih]
    · rw [List.filter_cons_of_neg (by simpa using hp)]
      by_cases hk : k1 = k
      · subst hk
        simp [getV, hp, ih]
      · simp [getV, hk, ih]

theorem cleanItem_getV (item : Obj) (k : String) :
    getV (cleanItem item) k = if isDollarKey k then none else getV item k := by
  unfold cleanItem
  rw [getV_filter (fun k => !isDollarKey k) item k]
  by_cases h : isDollarKey k <;> simp [h]

theorem cleanItem_keys (item : Obj) :
    objKeys (cleanItem item) = (objKeys item).filter (fun k => !isDollarKey k) := by
  unfold cleanItem objKeys
  induction item with
  | nil => simp
  | cons q t ih =>
    obtain ⟨k1, v1⟩ := q
    by_cases hp : (!isDollarKey k1) = true
    · rw [List.filter_cons_of_pos (by simpa using hp), List.map_cons, List.map_cons,
        List.filter_cons_of_pos (by simpa using hp), ih]
    · rw [List.filter_cons_of_neg (by simpa using hp), List.map_cons,
        List.filter_cons_of_neg (by simpa using hp), ih]

theorem cleanItem_keys_no_dollar (item : Obj) :
    ∀ k ∈ objKeys (cleanItem item), isDollarKey k = false := by
  intro k hk
  rw [cleanItem_keys] at hk
  have := List.of_mem_filter hk
  simpa using this

theorem foldl_createOne_general (s : CoreState) (R : Obj → Obj → Prop) (items : List Obj)
    (hR : ∀ c x, x ∈ items → R x (cleanItem (createProcess s c x))) :
    ∀ c : ChangesItem, ∃ news : List Obj,
      (items.foldl (createOne s) c).create = c.create ++ news ∧
        news.length = items.length ∧
        (∀ i, i < items.length → R (items.getD i []) (news.getD i [])) ∧
        (items.foldl (createOne s) c).update = c.update ∧
        (items.foldl (createOne s) c).delete = c.delete := by
  induction items with
  | nil =>
    intro c
    exact ⟨[], by simp, rfl, fun i hi => by simp at hi, rfl, rfl⟩
  | cons x t ih =>
    intro c
    obtain ⟨news, h1, h2, h3, h4, h5⟩ :=
      ih (fun c' y hy => hR c' y (List.mem_cons_of_mem x hy)) (createOne s c x)
    refine ⟨cleanItem (createProcess s c x) :: news, ?_, by simpa using h2, ?_, ?_, ?_⟩
    · rw [List.foldl_cons, h1]
      simp [createOne]
    · intro i hi
      cases i with
      | zero => simpa using hR c x (List.mem_cons_self x t)
      | succ j =>
        have := h3 j (by simpa using hi)
        simpa using this
    · rw [List.foldl_cons, h4]
      simp [createOne]
    · rw [List.foldl_cons, h5]
      simp [createOne]

/-- Claim C8: `cleanItem` keeps exactly the keys that do not begin with
`$`, each bound to the same value; `create` stages only cleaned items, so
the entries it appends to the create list — and, inductively, a create
list populated only by `create` — carry no `$`-prefixed keys. -/
theorem C8_cleanItem_create (item : Obj) (s : CoreState) (items : List Obj) :
    (objKeys (cleanItem item) = (objKeys item).filter (fun k => !isDollarKey k)) ∧
      (∀ k, isDollarKey k = false → getV (cleanItem item) k = getV item k) ∧
      (∀ k, isDollarKey k = true → getV (cleanItem item) k = none) ∧
      (∃ news : List Obj,
        (createAct s items).changes.create = s.changes.create ++ news ∧
          news.length = items.length ∧
          ∀ e ∈ news, ∀ k ∈ objKeys e, isDollarKey k = false) ∧
      ((∀ e ∈ s.changes.create, ∀ k ∈ objKeys e, isDollarKey k = false) →
        ∀ e ∈ (createAct s items).changes.create, ∀ k ∈ objKeys e, isDollarKey k = false) := by
  have hnews : ∃ news : List Obj,
      (createAct s items).changes.create = s.changes.create ++ news ∧
        news.length = items.length ∧
        ∀ e ∈ news, ∀ k ∈ objKeys e, isDollarKey k = false := by
    obtain ⟨news, h1, h2, h3, _, _⟩ :=
      foldl_createOne_general s
        (fun _ e => ∀ k ∈ objKeys e, isDollarKey k = false) items
        (fun c x _ => cleanItem_keys_no_dollar (createProcess s c x)) s.changes
    refine ⟨news, ?_, h2, ?_⟩
    · rw [createAct_changes, h1]
    · intro e he
      obtain ⟨i, hi, hie⟩ := List.mem_iff_getElem.mp he
      have := h3 i (by omega)
      rw [List.getD_eq_getElem news [] (by omega)] at this
      rw [← hie]
      exact this
  refine ⟨cleanItem_keys item, ?_, ?_, hnews, ?_⟩
  · intro k hk
    rw [cleanItem_getV, hk]
    simp
  · intro k hk
    rw [cleanItem_getV, hk]
    simp
  · intro hall e he
    obtain ⟨news, h1, _, h3⟩ := hnews
    rw [h1] at he
    rcases List.mem_append.mp he with hold | hnew
    · exact hall e hold
    · exact h3 e hnew

/-- Witness for C8: cleaning an item with a `$type` tag drops exactly that
binding, and `create` appends only `$`-free entries. -/
theorem C8_cleanItem_create_witness :
    getV (cleanItem [("$type", Val.vstr "created"), ("a", Val.vnum 1)]) "a" =
        some (Val.vnum 1) ∧
      getV (cleanItem [("$type", Val.vstr "created"), ("a", Val.vnum 1)]) "$type" = none := by
  have h := C8_cleanItem_create [("$type", Val.vstr "created"), ("a", Val.vnum 1)]
    { relation := none,
      query := ⟨1, 10⟩,
      itemId := Val.vnum 7,
      value := RawValue.obj ⟨[], [], []⟩,
      fetchedItems := [],
      existingItemCount := 0,
      existingSortMax := none,
      fetchedSelectItems := [],
      loading := false } []
  exact ⟨(h.2.1 "a" (by decide)).trans (by rfl), h.2.2.1 "$type" (by decide)⟩


theorem mapExcept_ok {α β : Type} (g : α → β) (l : List α) :
    mapExcept (fun a => (Except.ok (g a) : Except String β)) l = Except.ok (l.map g) := by
  induction l with
  | nil => rfl
  | cons x t ih => simp [mapExcept, ih]

theorem isNilO_some_of_ne_null (v : Val) (h : v ≠ Val.vnull) : isNilO (some v) = false := by
  cases v with
  | vnull => exact absurd rfl h
  | vnum n => rfl
  | vstr t => rfl
  | vobj o => rfl

theorem ne_of_isDollarKey_false {k d : String} (h : isDollarKey k = false)
    (hd : isDollarKey d = true) : k ≠ d := by
  intro hh
  rw [hh, hd] at h
  exact Bool.noConfusion h

theorem createProcess_getV_stable (s : CoreState) (c : ChangesItem) (item : Obj) (k : String)
    (hnil : isNilO (getV item k) = false) :
    getV (createProcess s c item) k = getV item k := by
  unfold createProcess
  cases hsf : (match s.relation with | some rel => rel.sortField | none => none) with
  | none => rfl
  | some f =>
    simp only
    by_cases hf : isNilO (getV item f) = true
    · have hne : f ≠ k := by
        intro hh
        rw [hh, hnil] at hf
        exact Bool.noConfusion hf
      simp only [hf, if_true]
      exact getV_setV_ne item f _ k hne
    · simp only [Bool.not_eq_true] at hf
      simp only [hf, Bool.false_eq_true, if_false]

theorem create_staged_getV (s : CoreState) (c : ChangesItem) (item : Obj) (k : String)
    (hk : isDollarKey k = false) (hnil : isNilO (getV item k) = false) :
    getV (cleanItem (createProcess s c item)) k = getV item k := by
  rw [cleanItem_getV, hk]
  simp only [Bool.false_eq_true, if_false]
  exact createProcess_getV_stable s c item k hnil

theorem foldl_updateOne_push (entries : List Obj)
    (h : ∀ e ∈ entries, getV e "$type" = none) :
    ∀ c : ChangesItem, entries.foldl updateOne c =
      { create := c.create, update := c.update ++ entries, delete := c.delete } := by
  induction entries with
  | nil => intro c; simp
  | cons x t ih =>
    intro c
    rw [List.foldl_cons]
    have hx : getV x "$type" = none := h x (List.mem_cons_self x t)
    have hone : updateOne c x = { c with update := c.update ++ [x] } := by
      unfold updateOne
      rw [hx]
    rw [hone, ih (fun e he => h e (List.mem_cons_of_mem x he))]
    simp

/-- Claim C7: `select` records, for an o2m relation, an update entry per id
carrying the reverse-junction field (set to the current item id) and the
related primary-key field (set to the id); for m2m, a create entry per id
nesting the id under the junction field; for m2a, a create entry per id
additionally storing the collection under the collection field and nesting
the id under that collection's primary-key field. -/
theorem C7_select (s : CoreState) (ids : List Val) (collection : Option String) :
    (∀ rpk rjf sfr, s.relation = some (Relation.o2m rpk rjf sfr) →
      isDollarKey rjf = false → isDollarKey rpk = false → rjf ≠ rpk →
        (selectAct s ids collection).2 = none ∧
          ((selectAct s ids collection).1).changes.update =
            s.changes.update ++ ids.map (fun id => [(rjf, s.itemId), (rpk, id)]) ∧
          ∀ id : Val, getV [(rjf, s.itemId), (rpk, id)] rjf = some s.itemId ∧
            getV [(rjf, s.itemId), (rpk, id)] rpk = some id) ∧
      (∀ jpk jf rpk rjf sfr, s.relation = some (Relation.m2m jpk jf rpk rjf sfr) →
        isDollarKey rjf = false → isDollarKey jf = false → rjf ≠ jf →
        s.itemId ≠ Val.vnull →
          (selectAct s ids collection).2 = none ∧
            ∃ news : List Obj,
              ((selectAct s ids collection).1).changes.create = s.changes.create ++ news ∧
                news.length = ids.length ∧
                ∀ i, i < ids.length →
                  getV (news.getD i []) rjf = some s.itemId ∧
                  getV (news.getD i []) jf =
                    some (Val.vobj [(rpk, ids.getD i Val.vnull)])) ∧
      (∀ jpk jf cf rjf pks sfr coll, s.relation = some (Relation.m2a jpk jf cf rjf pks sfr) →
        collection = some coll → coll ≠ "" →
        isDollarKey rjf = false → isDollarKey jf = false → isDollarKey cf = false →
        rjf ≠ jf → rjf ≠ cf → cf ≠ jf → s.itemId ≠ Val.vnull →
          (selectAct s ids collection).2 = none ∧
            ∃ news : List Obj,
              ((selectAct s ids collection).1).changes.create = s.changes.create ++ news ∧
                news.length = ids.length ∧
                ∀ i, i < ids.length →
                  getV (news.getD i []) rjf = some s.itemId ∧
                  getV (news.getD i []) cf = some (Val.vstr coll) ∧
                  getV (news.getD i []) jf =
                    some (Val.vobj [(pks coll, ids.getD i Val.vnull)])) := by
  refine ⟨?_, ?_, ?_⟩
  · intro rpk rjf sfr hrel hdr hdp hne
    have hentry : ∀ id : Val, setV (setV [] rjf s.itemId) rpk id = [(rjf, s.itemId), (rpk, id)] := by
      intro id
      simp [setV, hne]
    have hmapm : mapExcept (selectionItem (Relation.o2m rpk rjf sfr) s.itemId collection) ids =
        Except.ok (ids.map (fun id => [(rjf, s.itemId), (rpk, id)])) := by
      have := mapExcept_ok (fun id : Val => setV (setV [] rjf s.itemId) rpk id) ids
      rw [show (ids.map fun id : Val => setV (setV [] rjf s.itemId) rpk id) =
          ids.map (fun id => [(rjf, s.itemId), (rpk, id)]) from List.map_congr_left
          (fun id _ => hentry id)] at this
      exact this
    have hsel : selectAct s ids collection =
        (updateAct s (ids.map (fun id => [(rjf, s.itemId), (rpk, id)])), none) := by
      unfold selectAct
      rw [hrel]
      dsimp only
      rw [hmapm]
      dsimp only [Relation.isO2M]
      simp
    have htype : ∀ e ∈ ids.map (fun id => [(rjf, s.itemId), (rpk, id)]),
        getV e "$type" = none := by
      intro e he
      obtain ⟨id, _, rfl⟩ := List.mem_map.mp he
      have h1 : rjf ≠ "$type" := ne_of_isDollarKey_false hdr (by decide)
      have h2 : rpk ≠ "$type" := ne_of_isDollarKey_false hdp (by decide)
      simp [getV, h1, h2]
    refine ⟨by rw [hsel], ?_, ?_⟩
    · rw [hsel]
      rw [updateAct_changes s (Relation.o2m rpk rjf sfr) hrel]
      rw [foldl_updateOne_push _ htype s.changes]
    · intro id
      constructor
      · simp [getV]
      · simp [getV, hne]
  · intro jpk jf rpk rjf sfr hrel hdr hdj hne hid
    have hentry : ∀ id : Val,
        setV (setV [] rjf s.itemId) jf (Val.vobj (setV [] rpk id)) =
          [(rjf, s.itemId), (jf, Val.vobj [(rpk, id)])] := by
      intro id
      simp [setV, hne]
    have hmapm : mapExcept (selectionItem (Relation.m2m jpk jf rpk rjf sfr) s.itemId collection)
        ids =
        Except.ok (ids.map (fun id => [(rjf, s.itemId), (jf, Val.vobj [(rpk, id)])])) := by
      have := mapExcept_ok
        (fun id : Val => setV (setV [] rjf s.itemId) jf (Val.vobj (setV [] rpk id))) ids
      rw [show (ids.map fun id : Val => setV (setV [] rjf s.itemId) jf (Val.vobj (setV [] rpk id))) =
          ids.map (fun id => [(rjf, s.itemId), (jf, Val.vobj [(rpk, id)])]) from
          List.map_congr_left (fun id _ => hentry id)] at this
      exact this
    have hsel : selectAct s ids collection =
        (createAct s (ids.map (fun id => [(rjf, s.itemId), (jf, Val.vobj [(rpk, id)])])), none) := by
      unfold selectAct
      rw [hrel]
      dsimp only
      rw [hmapm]
      dsimp only [Relation.isO2M]
      simp
    refine ⟨by rw [hsel], ?_⟩
    obtain ⟨news, h1, h2, h3, _, _⟩ :=
      foldl_createOne_general s
        (fun x e => getV e rjf = getV x rjf ∧ getV e jf = getV x jf)
        (ids.map (fun id => [(rjf, s.itemId), (jf, Val.vobj [(rpk, id)])]))
        (fun c x hx => by
          obtain ⟨id, _, rfl⟩ := List.mem_map.mp hx
          have hv1 : getV [(rjf, s.itemId), (jf, Val.vobj [(rpk, id)])] rjf = some s.itemId := by
            simp [getV]
          have hv2 : getV [(rjf, s.itemId), (jf, Val.vobj [(rpk, id)])] jf =
              some (Val.vobj [(rpk, id)]) := by
            simp [getV, hne]
          constructor
          · rw [create_staged_getV s c _ rjf hdr (by rw [hv1]; exact isNilO_some_of_ne_null _ hid)]
          · rw [create_staged_getV s c _ jf hdj (by rw [hv2]; rfl)])
        s.changes
    refine ⟨news, ?_, by simpa using h2, ?_⟩
    · rw [hsel]
      simp only
      rw [createAct_changes, h1]
    · intro i hi
      have hlen : i < (ids.map (fun id => [(rjf, s.itemId), (jf, Val.vobj [(rpk, id)])])).length := by
        simpa using hi
      have := h3 i hlen
      have hgetd : (ids.map (fun id => [(rjf, s.itemId), (jf, Val.vobj [(rpk, id)])])).getD i [] =
          [(rjf, s.itemId), (jf, Val.vobj [(rpk, ids.getD i Val.vnull)])] := by
        rw [List.getD_eq_getElem _ _ hlen, List.getElem_map, List.getD_eq_getElem _ _ hi]
      rw [hgetd] at this
      obtain ⟨t1, t2⟩ := this
      refine ⟨?_, ?_⟩
      · rw [t1]
        simp [getV]
      · rw [t2]
        simp [getV, hne]
  · intro jpk jf cf rjf pks sfr coll hrel hcoll hcne hdr hdj hdc hne1 hne2 hne3 hid
    have hentry : ∀ id : Val,
        setV (setV (setV [] rjf s.itemId) cf (Val.vstr coll)) jf
            (Val.vobj (setV [] (pks coll) id)) =
          [(rjf, s.itemId), (cf, Val.vstr coll), (jf, Val.vobj [(pks coll, id)])] := by
      intro id
      simp [setV, hne1, hne2, hne3]
    have hmapm : mapExcept (selectionItem (Relation.m2a jpk jf cf rjf pks sfr) s.itemId collection)
        ids =
        Except.ok (ids.map (fun id =>
          [(rjf, s.itemId), (cf, Val.vstr coll), (jf, Val.vobj [(pks coll, id)])])) := by
      rw [hcoll]
      have heq : (selectionItem (Relation.m2a jpk jf cf rjf pks sfr) s.itemId (some coll)) =
          fun id => (Except.ok
            (setV (setV (setV [] rjf s.itemId) cf (Val.vstr coll)) jf
              (Val.vobj (setV [] (pks coll) id))) : Except String Obj) := by
        funext id
        simp [selectionItem, hcne]
      rw [heq]
      have := mapExcept_ok
        (fun id : Val => setV (setV (setV [] rjf s.itemId) cf (Val.vstr coll)) jf
          (Val.vobj (setV [] (pks coll) id))) ids
      rw [show (ids.map fun id : Val => setV (setV (setV [] rjf s.itemId) cf (Val.vstr coll)) jf
          (Val.vobj (setV [] (pks coll) id))) =
          ids.map (fun id =>
            [(rjf, s.itemId), (cf, Val.vstr coll), (jf, Val.vobj [(pks coll, id)])]) from
          List.map_congr_left (fun id _ => hentry id)] at this
      exact this
    have hsel : selectAct s ids collection =
        (createAct s (ids.map (fun id =>
          [(rjf, s.itemId), (cf, Val.vstr coll), (jf, Val.vobj [(pks coll, id)])])), none) := by
      unfold selectAct
      rw [hrel]
      dsimp only
      rw [hmapm]
      dsimp only [Relation.isO2M]
      simp
    refine ⟨by rw [hsel], ?_⟩
    obtain ⟨news, h1, h2, h3, _, _⟩ :=
      foldl_createOne_general s
        (fun x e => getV e rjf = getV x rjf ∧ getV e cf = getV x cf ∧ getV e jf = getV x jf)
        (ids.map (fun id =>
          [(rjf, s.itemId), (cf, Val.vstr coll), (jf, Val.vobj [(pks coll, id)])]))
        (fun c x hx => by
          obtain ⟨id, _, rfl⟩ := List.mem_map.mp hx
          have hv1 : getV [(rjf, s.itemId), (cf, Val.vstr coll), (jf, Val.vobj [(pks coll, id)])]
              rjf = some s.itemId := by
            simp [getV]
          have hv2 : getV [(rjf, s.itemId), (cf, Val.vstr coll), (jf, Val.vobj [(pks coll, id)])]
              cf = some (Val.vstr coll) := by
            simp [getV, hne2]
          have hv3 : getV [(rjf, s.itemId), (cf, Val.vstr coll), (jf, Val.vobj [(pks coll, id)])]
              jf = some (Val.vobj [(pks coll, id)]) := by
            simp [getV, hne1, hne3]
          refine ⟨?_, ?_, ?_⟩
          · rw [create_staged_getV s c _ rjf hdr (by rw [hv1]; exact isNilO_some_of_ne_null _ hid)]
          · rw [create_staged_getV s c _ cf hdc (by rw [hv2]; rfl)]
          · rw [create_staged_getV s c _ jf hdj (by rw [hv3]; rfl)])
        s.changes
    refine ⟨news, ?_, by simpa using h2, ?_⟩
    · rw [hsel]
      simp only
      rw [createAct_changes, h1]
    · intro i hi
      have hlen : i < (ids.map (fun id =>
          [(rjf, s.itemId), (cf, Val.vstr coll), (jf, Val.vobj [(pks coll, id)])])).length := by
        simpa using hi
      have := h3 i hlen
      have hgetd : (ids.map (fun id =>
          [(rjf, s.itemId), (cf, Val.vstr coll), (jf, Val.vobj [(pks coll, id)])])).getD i [] =
          [(rjf, s.itemId), (cf, Val.vstr coll),
            (jf, Val.vobj [(pks coll, ids.getD i Val.vnull)])] := by
        rw [List.getD_eq_getElem _ _ hlen, List.getElem_map, List.getD_eq_getElem _ _ hi]
      rw [hgetd] at this
      obtain ⟨t1, t2, t3⟩ := this
      refine ⟨?_, ?_, ?_⟩
      · rw [t1]
        simp [getV]
      · rw [t2]
        simp [getV, hne2]
      · rw [t3]
        simp [getV, hne1, hne3]


/-- Witness for C7: selecting ids 3 and 4 on an o2m relation stages two
update entries pairing the reverse-junction field with the current item id
and the related primary key with the selected id. -/
theorem C7_select_witness :
    ((selectAct
        { relation := some (Relation.o2m "id" "rev" none),
          query := ⟨1, 10⟩,
          itemId := Val.vnum 7,
          value := RawValue.obj ⟨[], [], []⟩,
          fetchedItems := [],
          existingItemCount := 0,
          existingSortMax := none,
          fetchedSelectItems := [],
          loading := false } [Val.vnum 3, Val.vnum 4] none).1).changes.update =
      [[("rev", Val.vnum 7), ("id", Val.vnum 3)], [("rev", Val.vnum 7), ("id", Val.vnum 4)]] := by
  have h := (C7_select
    { relation := some (Relation.o2m "id" "rev" none),
      query := ⟨1, 10⟩,
      itemId := Val.vnum 7,
      value := RawValue.obj ⟨[], [], []⟩,
      fetchedItems := [],
      existingItemCount := 0,
      existingSortMax := none,
      fetchedSelectItems := [],
      loading := false } [Val.vnum 3, Val.vnum 4] none).1 "id" "rev" none rfl
    (by decide) (by decide) (by decide)
  exact h.2.1.trans (by rfl)


/-- Counterexample to C9 as stated: on an m2a relation, `select` called
without a collection but with an empty id list does not throw — the map
never runs its callback, so no error is raised. -/
theorem C9_counterexample :
    (selectAct
        { relation := some (Relation.m2a "jid" "junc" "coll" "rev" (fun _ => "id") none),
          query := ⟨1, 10⟩,
          itemId := Val.vnum 7,
          value := RawValue.obj ⟨[], [], []⟩,
          fetchedItems := [],
          existingItemCount := 0,
          existingSortMax := none,
          fetchedSelectItems := [],
          loading := false } [] none).2 = none := by
  rfl

/-- Claim C9 (amended): on an m2a relation, `select` with a nonempty id
list and a missing (or empty, hence falsy) collection argument throws, and
the whole state — in particular the changes value — is left unchanged by
the failed call; with an empty id list nothing is thrown. -/
theorem C9_select_m2a_requires_collection (s : CoreState) (ids : List Val)
    (collection : Option String) (jpk jf cf rjf : String) (pks : String → String)
    (sfr : Option String)
    (hrel : s.relation = some (Relation.m2a jpk jf cf rjf pks sfr))
    (hids : ids ≠ [])
    (hcoll : collection = none ∨ collection = some "") :
    (selectAct s ids collection).2 = some "You need to provide a collection on an m2a" ∧
      (selectAct s ids collection).1 = s := by
  obtain ⟨id, rest, rfl⟩ := List.exists_cons_of_ne_nil hids
  have hsi : selectionItem (Relation.m2a jpk jf cf rjf pks sfr) s.itemId collection id =
      Except.error "You need to provide a collection on an m2a" := by
    rcases hcoll with h | h <;> subst h <;> simp [selectionItem]
  have hmap : mapExcept (selectionItem (Relation.m2a jpk jf cf rjf pks sfr) s.itemId collection)
      (id :: rest) = Except.error "You need to provide a collection on an m2a" := by
    rw [mapExcept, hsi]
  unfold selectAct
  rw [hrel]
  dsimp only
  rw [hmap]
  exact ⟨rfl, rfl⟩

/-- Witness for C9 (amended): selecting id 3 on an m2a relation without a
collection throws and leaves the state untouched. -/
theorem C9_select_m2a_requires_collection_witness :
    (selectAct
        { relation := some (Relation.m2a "jid" "junc" "coll" "rev" (fun _ => "id") none),
          query := ⟨1, 10⟩,
          itemId := Val.vnum 7,
          value := RawValue.obj ⟨[[("a", Val.vnum 1)]], [], []⟩,
          fetchedItems := [],
          existingItemCount := 0,
          existingSortMax := none,
          fetchedSelectItems := [],
          loading := false } [Val.vnum 3] none).2 =
        some "You need to provide a collection on an m2a" ∧
      ((selectAct
        { relation := some (Relation.m2a "jid" "junc" "coll" "rev" (fun _ => "id") none),
          query := ⟨1, 10⟩,
          itemId := Val.vnum 7,
          value := RawValue.obj ⟨[[("a", Val.vnum 1)]], [], []⟩,
          fetchedItems := [],
          existingItemCount := 0,
          existingSortMax := none,
          fetchedSelectItems := [],
          loading := false } [Val.vnum 3] none).1).changes.create = [[("a", Val.vnum 1)]] := by
  have h := C9_select_m2a_requires_collection
    { relation := some (Relation.m2a "jid" "junc" "coll" "rev" (fun _ => "id") none),
      query := ⟨1, 10⟩,
      itemId := Val.vnum 7,
      value := RawValue.obj ⟨[[("a", Val.vnum 1)]], [], []⟩,
      fetchedItems := [],
      existingItemCount := 0,
      existingSortMax := none,
      fetchedSelectItems := [],
      loading := false } [Val.vnum 3] none "jid" "junc" "coll" "rev" (fun _ => "id") none rfl
    (List.cons_ne_nil _ _) (Or.inl rfl)
  exact ⟨h.1, by rw [h.2]; rfl⟩


theorem jsEq_refl_of_prim (v : Val) (h : isPrim v = true) : jsEq v v = true := by
  cases v with
  | vnum n => simp [jsEq]
  | vstr t => simp [jsEq]
  | vnull => rfl
  | vobj o => exact Bool.noConfusion h

theorem spliceOut_append_length {α : Type} (l : List α) (x : α) :
    spliceOut (l ++ [x]) (Val.vnum (l.length : Int)) = l := by
  unfold spliceOut
  dsimp only
  have h1 : ¬((l.length : Int) < 0) := by omega
  rw [if_neg h1]
  have h2 : min (l.length : Int) ((l ++ [x]).length : Int) = (l.length : Int) := by
    simp
  rw [h2]
  rw [show ((l.length : Int)).toNat = l.length from by omega]
  rw [List.eraseIdx_append_of_length_le (le_refl _)]
  simp

/-- Claim C10: for a fetched item with no pending edit and no pending
delete, `remove` appends its primary-key value to the delete list; the
item's display record is then tagged `deleted` at the appended position
(with `$edits` undefined), and applying `remove` to that record splices
the entry back out, restoring the delete list — removing an
already-deleted item un-deletes it. -/
theorem C10_remove_twice (s : CoreState) (rel : Relation) (item : Obj) (pkv : Val)
    (hrel : s.relation = some rel)
    (hpk : getV item rel.targetPKField = some pkv)
    (hprim : isPrim pkv = true)
    (hnodup : (objKeys item).Nodup)
    (htype : getV item "$type" = none)
    (hedits : getV item "$edits" = none)
    (hNoEdit : ∀ e ∈ s.changes.update,
      jsEqO (getV e rel.targetPKField) (getV item rel.targetPKField) = false)
    (hNoDel : ∀ id ∈ s.changes.delete, jsEqO id (getV item rel.targetPKField) = false) :
    displayRecord s.changes rel.targetPKField item = item ∧
      (removeAct s [item]).changes.delete = s.changes.delete ++ [some pkv] ∧
      (removeAct s [item]).changes.update = s.changes.update ∧
      (removeAct s [item]).changes.create = s.changes.create ∧
      getV (displayRecord (removeAct s [item]).changes rel.targetPKField item) "$type" =
        some (Val.vstr "deleted") ∧
      getV (displayRecord (removeAct s [item]).changes rel.targetPKField item) "$index" =
        some (Val.vnum (s.changes.delete.length : Int)) ∧
      getV (displayRecord (removeAct s [item]).changes rel.targetPKField item) "$edits" = none ∧
      (removeAct (removeAct s [item])
        [displayRecord (removeAct s [item]).changes rel.targetPKField item]).changes.delete =
        s.changes.delete := by
  have hEidx : s.changes.update.findIdx?
      (fun edit => jsEqO (getV edit rel.targetPKField) (getV item rel.targetPKField)) = none :=
    List.findIdx?_eq_none_iff.mpr hNoEdit
  have hDidx : s.changes.delete.findIdx?
      (fun id => jsEqO id (getV item rel.targetPKField)) = none :=
    List.findIdx?_eq_none_iff.mpr hNoDel
  have hd1 : displayRecord s.changes rel.targetPKField item = item := by
    unfold displayRecord displayUpdated
    rw [hEidx, hDidx]
    exact mergeInto_nil item hnodup
  have hc1 : (removeAct s [item]).changes =
      ChangesItem.mk s.changes.create s.changes.update (s.changes.delete ++ [some pkv]) := by
    rw [removeAct_changes s rel hrel, List.foldl_cons, List.foldl_nil]
    unfold removeOne
    rw [htype, hpk]
  have hc1c : (removeAct s [item]).changes.create = s.changes.create := by
    rw [hc1]
  have hc1u : (removeAct s [item]).changes.update = s.changes.update := by
    rw [hc1]
  have hc1d : (removeAct s [item]).changes.delete = s.changes.delete ++ [some pkv] := by
    rw [hc1]
  have hDidx2 : (s.changes.delete ++ [some pkv]).findIdx?
      (fun id => jsEqO id (getV item rel.targetPKField)) =
      some s.changes.delete.length := by
    rw [List.findIdx?_append, hDidx]
    have hsingle : ([some pkv] : List (Option Val)).findIdx?
        (fun id => jsEqO id (getV item rel.targetPKField)) = some 0 := by
      have hp : jsEqO (some pkv) (getV item rel.targetPKField) = true := by
        rw [hpk]
        exact jsEq_refl_of_prim pkv hprim
      simp [List.findIdx?_cons, hp]
    rw [hsingle]
    simp
  have hd2 : displayRecord (removeAct s [item]).changes rel.targetPKField item =
      mergeInto (mergeInto [] item) (delMeta s.changes.delete.length) := by
    unfold displayRecord displayUpdated
    rw [hc1u, hc1d, hEidx, hDidx2]
  have hdelmeta : (objKeys (delMeta s.changes.delete.length)).Nodup := by
    simp [delMeta, objKeys]
  have ht2 : getV (displayRecord (removeAct s [item]).changes rel.targetPKField item) "$type" =
      some (Val.vstr "deleted") := by
    rw [hd2, mergeInto_getV _ hdelmeta]
    rw [show getV (delMeta s.changes.delete.length) "$type" = some (Val.vstr "deleted") from rfl]
    simp [mergeValO_vstr]
  have hi2 : getV (displayRecord (removeAct s [item]).changes rel.targetPKField item) "$index" =
      some (Val.vnum (s.changes.delete.length : Int)) := by
    rw [hd2, mergeInto_getV _ hdelmeta]
    rw [show getV (delMeta s.changes.delete.length) "$index" =
      some (Val.vnum (s.changes.delete.length : Int)) from by simp [delMeta, getV]]
    simp [mergeValO_vnum]
  have he2 : getV (displayRecord (removeAct s [item]).changes rel.targetPKField item) "$edits" =
      none := by
    rw [hd2, mergeInto_getV _ hdelmeta]
    rw [show getV (delMeta s.changes.delete.length) "$edits" = none from by
      simp [delMeta, getV]]
    simp [mergeInto_nil item hnodup, hedits]
  have hrel1 : (removeAct s [item]).relation = some rel := by
    rw [removeAct_relation, hrel]
  have hback : (removeAct (removeAct s [item])
      [displayRecord (removeAct s [item]).changes rel.targetPKField item]).changes.delete =
      s.changes.delete := by
    rw [removeAct_changes (removeAct s [item]) rel hrel1, List.foldl_cons, List.foldl_nil]
    unfold removeOne
    rw [ht2, hi2]
    dsimp only
    rw [show jsEq (Val.vstr "deleted") (Val.vstr "created") = false from by decide]
    rw [show jsEq (Val.vstr "deleted") (Val.vstr "updated") = false from by decide]
    rw [show jsEq (Val.vstr "deleted") (Val.vstr "deleted") = true from by decide]
    simp only [Bool.false_eq_true, if_false, if_true]
    rw [hc1d]
    exact spliceOut_append_length s.changes.delete (some pkv)
  exact ⟨hd1, hc1d, hc1u, hc1c, ht2, hi2, he2, hback⟩


/-- Witness for C10: removing the fetched item with primary key 3 stages
its deletion; removing its now-`deleted` display record un-deletes it. -/
theorem C10_remove_twice_witness :
    (removeAct
        { relation := some (Relation.o2m "id" "rev" none),
          query := ⟨1, 10⟩,
          itemId := Val.vnum 7,
          value := RawValue.obj ⟨[], [], []⟩,
          fetchedItems := [[("id", Val.vnum 3), ("name", Val.vstr "x")]],
          existingItemCount := 1,
          existingSortMax := none,
          fetchedSelectItems := [],
          loading := false } [[("id", Val.vnum 3), ("name", Val.vstr "x")]]).changes.delete =
      [some (Val.vnum 3)] ∧
    (removeAct
        (removeAct
          { relation := some (Relation.o2m "id" "rev" none),
            query := ⟨1, 10⟩,
            itemId := Val.vnum 7,
            value := RawValue.obj ⟨[], [], []⟩,
            fetchedItems := [[("id", Val.vnum 3), ("name", Val.vstr "x")]],
            existingItemCount := 1,
            existingSortMax := none,
            fetchedSelectItems := [],
            loading := false } [[("id", Val.vnum 3), ("name", Val.vstr "x")]])
        [displayRecord
          (removeAct
            { relation := some (Relation.o2m "id" "rev" none),
              query := ⟨1, 10⟩,
              itemId := Val.vnum 7,
              value := RawValue.obj ⟨[], [], []⟩,
              fetchedItems := [[("id", Val.vnum 3), ("name", Val.vstr "x")]],
              existingItemCount := 1,
              existingSortMax := none,
              fetchedSelectItems := [],
              loading := false } [[("id", Val.vnum 3), ("name", Val.vstr "x")]]).changes
          "id" [("id", Val.vnum 3), ("name", Val.vstr "x")]]).changes.delete = [] := by
  have h := C10_remove_twice
    { relation := some (Relation.o2m "id" "rev" none),
      query := ⟨1, 10⟩,
      itemId := Val.vnum 7,
      value := RawValue.obj ⟨[], [], []⟩,
      fetchedItems := [[("id", Val.vnum 3), ("name", Val.vstr "x")]],
      existingItemCount := 1,
      existingSortMax := none,
      fetchedSelectItems := [],
      loading := false }
    (Relation.o2m "id" "rev" none)
    [("id", Val.vnum 3), ("name", Val.vstr "x")] (Val.vnum 3)
    rfl rfl (by decide) (by decide) rfl rfl
    (fun e he => absurd he (List.not_mem_nil e))
    (fun i hi => absurd hi (List.not_mem_nil i))
  exact ⟨h.2.1.trans (by rfl), h.2.2.2.2.2.2.2.trans (by rfl)⟩


theorem getV_updMeta_type (ei : Nat) : getV (updMeta ei) "$type" = some (Val.vstr "updated") := rfl

theorem getV_updMeta_index (ei : Nat) :
    getV (updMeta ei) "$index" = some (Val.vnum (ei : Int)) := rfl

theorem getV_updMeta_edits (ei : Nat) :
    getV (updMeta ei) "$edits" = some (Val.vnum (ei : Int)) := rfl

theorem getV_delMeta_type (di : Nat) : getV (delMeta di) "$type" = some (Val.vstr "deleted") := rfl

theorem getV_delMeta_index (di : Nat) :
    getV (delMeta di) "$index" = some (Val.vnum (di : Int)) := rfl

theorem getV_updMeta_other (ei : Nat) (k : String) (hk : isDollarKey k = false) :
    getV (updMeta ei) k = none := by
  have h1 : "$type" ≠ k := (ne_of_isDollarKey_false hk (by decide)).symm
  have h2 : "$index" ≠ k := (ne_of_isDollarKey_false hk (by decide)).symm
  have h3 : "$edits" ≠ k := (ne_of_isDollarKey_false hk (by decide)).symm
  simp [updMeta, getV, h1, h2, h3]

theorem updMeta_keys_nodup (ei : Nat) : (objKeys (updMeta ei)).Nodup := by
  rw [show objKeys (updMeta ei) = ["$type", "$index", "$edits"] from rfl]
  decide

theorem delMeta_keys_nodup (di : Nat) : (objKeys (delMeta di)).Nodup := by
  rw [show objKeys (delMeta di) = ["$type", "$index"] from rfl]
  decide

/-- Claim C1: each fetched item yields exactly one display record (in
fetch order, followed by the selected items and the created page slice):
unchanged when nothing matches it; deep-merged with the first matching
edit and tagged `updated` at the edit's position when one matches its
target primary key; further tagged `deleted` at the delete-list position
when its key is pending deletion; and each created page item is tagged
`created` at its position in the page slice. -/
theorem C1_displayItems (s : CoreState) (rel : Relation) (h : s.relation = some rel) :
    displayBase s =
      s.fetchedItems.map (displayRecord s.changes rel.targetPKField) ++
        selectedWithEdits s rel ++ createdTagged s ∧
      (∀ item : Obj,
        s.changes.update.findIdx?
            (fun edit => jsEqO (getV edit rel.targetPKField) (getV item rel.targetPKField)) =
          none →
        s.changes.delete.findIdx? (fun id => jsEqO id (getV item rel.targetPKField)) = none →
        (objKeys item).Nodup →
          displayRecord s.changes rel.targetPKField item = item) ∧
      (∀ item : Obj, ∀ ei : Nat,
        s.changes.update.findIdx?
            (fun edit => jsEqO (getV edit rel.targetPKField) (getV item rel.targetPKField)) =
          some ei →
        s.changes.delete.findIdx? (fun id => jsEqO id (getV item rel.targetPKField)) = none →
        (objKeys (s.changes.update.getD ei [])).Nodup →
        (∀ k ∈ objKeys (s.changes.update.getD ei []), isDollarKey k = false) →
        (objKeys item).Nodup →
          getV (displayRecord s.changes rel.targetPKField item) "$type" =
              some (Val.vstr "updated") ∧
            getV (displayRecord s.changes rel.targetPKField item) "$index" =
              some (Val.vnum (ei : Int)) ∧
            getV (displayRecord s.changes rel.targetPKField item) "$edits" =
              some (Val.vnum (ei : Int)) ∧
            ∀ k, isDollarKey k = false →
              getV (displayRecord s.changes rel.targetPKField item) k =
                getV (mergeInto item (s.changes.update.getD ei [])) k) ∧
      (∀ item : Obj, ∀ di : Nat,
        s.changes.delete.findIdx? (fun id => jsEqO id (getV item rel.targetPKField)) = some di →
          getV (displayRecord s.changes rel.targetPKField item) "$type" =
              some (Val.vstr "deleted") ∧
            getV (displayRecord s.changes rel.targetPKField item) "$index" =
              some (Val.vnum (di : Int))) ∧
      (∀ p : Nat × Obj,
        getV (setV (setV p.2 "$type" (Val.vstr "created")) "$index" (Val.vnum (p.1 : Int)))
            "$type" = some (Val.vstr "created") ∧
          getV (setV (setV p.2 "$type" (Val.vstr "created")) "$index" (Val.vnum (p.1 : Int)))
            "$index" = some (Val.vnum (p.1 : Int))) := by
  refine ⟨by simp [displayBase, h], ?_, ?_, ?_, ?_⟩
  · intro item hU hD hnd
    unfold displayRecord displayUpdated
    rw [hU, hD]
    exact mergeInto_nil item hnd
  · intro item ei hU hD hndE hdolE hndI
    have hrec : displayRecord s.changes rel.targetPKField item =
        mergeInto (mergeInto (mergeInto [] item) (updMeta ei)) (s.changes.update.getD ei []) := by
      unfold displayRecord displayUpdated
      rw [hU, hD]
    have hTnone : getV (s.changes.update.getD ei []) "$type" = none := by
      apply getV_eq_none_of_not_mem
      intro hmem
      have hd := hdolE "$type" hmem
      rw [show isDollarKey "$type" = true from by decide] at hd
      exact Bool.noConfusion hd
    have hInone : getV (s.changes.update.getD ei []) "$index" = none := by
      apply getV_eq_none_of_not_mem
      intro hmem
      have hd := hdolE "$index" hmem
      rw [show isDollarKey "$index" = true from by decide] at hd
      exact Bool.noConfusion hd
    have hEnone : getV (s.changes.update.getD ei []) "$edits" = none := by
      apply getV_eq_none_of_not_mem
      intro hmem
      have hd := hdolE "$edits" hmem
      rw [show isDollarKey "$edits" = true from by decide] at hd
      exact Bool.noConfusion hd
    refine ⟨?_, ?_, ?_, ?_⟩
    · rw [hrec, mergeInto_getV _ hndE, hTnone]
      simp [mergeInto_getV _ (updMeta_keys_nodup ei), getV_updMeta_type, mergeValO_vstr]
    · rw [hrec, mergeInto_getV _ hndE, hInone]
      simp [mergeInto_getV _ (updMeta_keys_nodup ei), getV_updMeta_index, mergeValO_vnum]
    · rw [hrec, mergeInto_getV _ hndE, hEnone]
      simp [mergeInto_getV _ (updMeta_keys_nodup ei), getV_updMeta_edits, mergeValO_vnum]
    · intro k hk
      have hInner : getV (mergeInto (mergeInto [] item) (updMeta ei)) k = getV item k := by
        rw [mergeInto_getV _ (updMeta_keys_nodup ei), getV_updMeta_other ei k hk]
        simp [mergeInto_nil item hndI]
      rw [hrec,
        mergeInto_getV (s.changes.update.getD ei []) hndE
          (mergeInto (mergeInto [] item) (updMeta ei)) k,
        mergeInto_getV (s.changes.update.getD ei []) hndE item k, hInner]
  · intro item di hD
    have hrecD : displayRecord s.changes rel.targetPKField item =
        mergeInto (displayUpdated s.changes rel.targetPKField item) (delMeta di) := by
      unfold displayRecord
      rw [hD]
    constructor
    · rw [hrecD, mergeInto_getV _ (delMeta_keys_nodup di)]
      simp [getV_delMeta_type, mergeValO_vstr]
    · rw [hrecD, mergeInto_getV _ (delMeta_keys_nodup di)]
      simp [getV_delMeta_index, mergeValO_vnum]
  · intro p
    constructor
    · rw [getV_setV_ne _ "$index" _ "$type" (by decide)]
      exact getV_setV_self _ _ _
    · exact getV_setV_self _ _ _


/-- Witness for C1: with an edit for primary key 1 at update position 0
and a pending delete of primary key 2, the first fetched item's record is
tagged `updated` and carries the edit's deep-merged value, and the second
item's record is tagged `deleted`. -/
theorem C1_displayItems_witness :
    getV (displayRecord ⟨[], [[("id", Val.vnum 1), ("a", Val.vnum 20)]], [some (Val.vnum 2)]⟩
        "id" [("id", Val.vnum 1), ("a", Val.vnum 10)]) "$type" = some (Val.vstr "updated") ∧
      getV (displayRecord ⟨[], [[("id", Val.vnum 1), ("a", Val.vnum 20)]], [some (Val.vnum 2)]⟩
        "id" [("id", Val.vnum 1), ("a", Val.vnum 10)]) "a" = some (Val.vnum 20) ∧
      getV (displayRecord ⟨[], [[("id", Val.vnum 1), ("a", Val.vnum 20)]], [some (Val.vnum 2)]⟩
        "id" [("id", Val.vnum 2)]) "$type" = some (Val.vstr "deleted") := by
  have h := C1_displayItems
    { relation := some (Relation.o2m "id" "rev" none),
      query := ⟨1, 10⟩,
      itemId := Val.vnum 7,
      value := RawValue.obj ⟨[], [[("id", Val.vnum 1), ("a", Val.vnum 20)]], [some (Val.vnum 2)]⟩,
      fetchedItems := [[("id", Val.vnum 1), ("a", Val.vnum 10)], [("id", Val.vnum 2)]],
      existingItemCount := 2,
      existingSortMax := none,
      fetchedSelectItems := [],
      loading := false } (Relation.o2m "id" "rev" none) rfl
  have h3 := h.2.2.1 [("id", Val.vnum 1), ("a", Val.vnum 10)] 0 (by decide) (by decide)
    (by decide) (by decide) (by decide)
  have h4 := h.2.2.2.1 [("id", Val.vnum 2)] 0 (by decide)
  exact ⟨h3.1,
    (h3.2.2.2 "a" (by decide)).trans (by
      show getV (mergeInto [("id", Val.vnum 1), ("a", Val.vnum 10)]
        [("id", Val.vnum 1), ("a", Val.vnum 20)]) "a" = some (Val.vnum 20)
      simp [mergeInto, mergeKey, mergeVal, getV]),
    h4.1⟩

end RelMult
